import Mathlib

/-!
Verification development for the conversation state machine of the
TutorIABUAP Telegram tutoring bot (`src/main.py`).

The per-user record `{bot_state, last_asesoria_topic, current_exercise}` and
the handlers `start_command`, `asesoria_command`, `ejemplo_command`,
`prueba_command`, `dudas_command`, `encuesta_command`, `handle_text_message`,
`handle_callback_query`, together with the helpers `call_gemini_api`,
`generate_exercise` and `send_long_message`, are embedded shallowly below.

Modelling conventions:
* Python strings are modelled as Lean `String`/`List Char`; `len` is the
  number of code points in both languages.
* The outside world behind one `call_gemini_api` invocation (HTTP transport,
  upstream status, response body, `json.loads` result) is abstracted into an
  `ApiOutcome` value supplied per event.
* Persistence follows the Firestore path of `get_user_state`/`set_user_state`:
  the handler works on a copy of the stored record and the store is updated
  only when a `set_user_state` call is reached.  An uncaught Python exception
  aborts the handler before any pending `set_user_state`, so the stored
  record is unchanged; this is modelled by an `Option UserState` result
  (`none` = the handler raised).
* `str.lower` is modelled per character by `Char.toLower` (ASCII case
  folding); all scanned keywords are ASCII.
* `str.strip` / `\s` use `Char.isWhitespace` (space, tab, CR, LF), covering
  every whitespace character occurring in the program's data.
-/

set_option maxHeartbeats 1000000
set_option maxRecDepth 100000

namespace TutorIABUAP

/-- Conversation modes stored in the `bot_state` field of the per-user
record.  Constructor names follow the string constants of `src/main.py`;
the specification's `awaiting_*` names map one-to-one onto them
(`awaiting_notebook_question` ↦ `waiting_for_duda_cuaderno`,
`awaiting_doubt` ↦ `waiting_for_doubt`, and so on). -/
inductive Mode
  | idle
  | waiting_for_duda_cuaderno
  | waiting_for_doubt
  | waiting_for_deepen_topic
  | waiting_for_example_topic
  | waiting_for_exercise_topic
  | waiting_for_exercise_difficulty
  | waiting_for_exercise_answer
  | waiting_for_exercise_resolution
  | waiting_for_next_action
deriving DecidableEq

/-- The `current_exercise` sub-record: `{"topic": ...}` is created on topic
selection, `difficulty` is added on difficulty selection and
`problem`/`solution` after generation (`dict.update`). -/
structure Exercise where
  topic : String
  difficulty : Option Int := none
  problem : Option String := none
  solution : Option String := none
deriving DecidableEq

/-- The per-user record written by `set_user_state` and read by
`get_user_state`: `{"bot_state": ..., "last_asesoria_topic": ...,
"current_exercise": ...}`. -/
structure UserState where
  bot_state : Mode
  last_asesoria_topic : Option String := none
  current_exercise : Option Exercise := none
deriving DecidableEq

/-- The default record returned by `get_user_state` for a fresh user and
written by `start_command`. -/
def default_state : UserState :=
  { bot_state := .idle, last_asesoria_topic := none, current_exercise := none }

/-- An inbound update: a slash command (name without the slash), a free-text
message, or an inline-button press (the `callback_data` string). -/
inductive Event
  | command (name : String)
  | text (body : String)
  | button (action : String)
deriving DecidableEq

/-- A JSON object parsed from a structured Gemini response, restricted to the
two schema keys requested by `generate_exercise` (`none` = key absent). -/
structure GenData where
  problem : Option String := none
  solution : Option String := none
deriving DecidableEq

/-- Environment behaviour of a single `call_gemini_api` invocation:
`content raw parsed` is a 2xx response whose first candidate carries the text
`raw`, with `parsed` the result of `json.loads raw` (`none` = parse error);
`empty` is a response with no text content; `httpError` raises
`httpx.HTTPStatusError` in `raise_for_status`; `transportError` is any other
exception inside the `try` block (connection failure, `response.json()`
failure); `noKey` is the missing `GEMINI_API_KEY` configuration case. -/
inductive ApiOutcome
  | content (raw : String) (parsed : Option GenData)
  | empty
  | httpError
  | transportError
  | noKey
deriving DecidableEq

/-- Failure string returned when `GEMINI_API_KEY` is unset. -/
def errNoKey : String := "Error: La conexión con la IA no está configurada."

/-- Failure string for a response without text content. -/
def errEmptyResp : String := "Lo siento, no pude generar una respuesta en este momento."

/-- Failure string of the `httpx.HTTPStatusError` handler. -/
def errHttp : String := "Hubo un problema con la IA. Inténtalo de nuevo más tarde."

/-- Failure string of the generic `except Exception` handler. -/
def errConn : String := "Hubo un problema conectando con la IA. Inténtalo de nuevo."

/-- `call_gemini_api(prompt)` with `is_structured=False`: always returns a
string (the response text, or one of the fixed failure strings).  A response
whose text is the empty string is falsy in Python's
`if text_content := ...`, hence treated like a missing text. -/
def call_gemini_text (o : ApiOutcome) : String :=
  match o with
  | .noKey => errNoKey
  | .httpError => errHttp
  | .transportError => errConn
  | .empty => errEmptyResp
  | .content raw _ => if raw = "" then errEmptyResp else raw

/-- Result of a structured `call_gemini_api` call: a Python `str` (failure
message) or the parsed JSON object. -/
inductive StructResult
  | rstr (s : String)
  | robj (d : GenData)
deriving DecidableEq

/-- `call_gemini_api(prompt, is_structured=True, schema=...)`: like
`call_gemini_text`, but a present text content is fed to `json.loads`, whose
failure is caught by the generic `except Exception` handler (hence yields
`errConn`, not `errEmptyResp`). -/
def call_gemini_structured (o : ApiOutcome) : StructResult :=
  match o with
  | .noKey => .rstr errNoKey
  | .httpError => .rstr errHttp
  | .transportError => .rstr errConn
  | .empty => .rstr errEmptyResp
  | .content raw parsed =>
      if raw = "" then .rstr errEmptyResp
      else
        match parsed with
        | some d => .robj d
        | none => .rstr errConn

/-- Contiguous-sublist test: `subOf needle hay` is Python's
`needle in hay` on strings, viewed as character lists. -/
def subOf (needle : List Char) : List Char → Bool
  | [] => needle.isEmpty
  | c :: t => needle.isPrefixOf (c :: t) || subOf needle t

/-- Python `needle in hay` on `str` values (substring containment). -/
def pyIn (needle hay : String) : Bool := subOf needle.data hay.data

/-- Python `s.lower()` (ASCII case folding per character). -/
def pyLower (s : String) : String := ⟨s.data.map Char.toLower⟩

/-- The fixed affirmative keyword list of `handle_text_message`. -/
def positive_keywords : List String :=
  ["correcto", "exacto", "perfecto", "muy bien", "excelente", "felicidades"]

/-- The verdict scan of `handle_text_message`:
`any(keyword in verification.lower() for keyword in positive_keywords)`. -/
def isCorrectFeedback (verification : String) : Bool :=
  positive_keywords.any (fun keyword => pyIn keyword (pyLower verification))

/-- Result of running one handler: the record passed to `set_user_state`
(`none` if the handler raised before reaching it, leaving the store
untouched), the texts sent to the user in order, and the number of
`call_gemini_api` invocations made. -/
structure HandlerResult where
  newState : Option UserState
  sent : List String
  gatewayCalls : Nat
deriving DecidableEq

/-- Reply text of `generate_exercise` on success (around the problem text). -/
def genSuccessMsg (p : String) : String :=
  "Aquí tienes:\n\n" ++ p ++ "\n\nEscribe tu respuesta."

/-- Reply text of `generate_exercise` on its explicit failure branch. -/
def genFailMsg : String := "No pude generar un ejercicio. Inténtalo de nuevo con /prueba."

/-- Embeds `generate_exercise` (src/main.py lines 151-165).  Notes:
* `state['current_exercise']['topic']` raises `TypeError` when
  `current_exercise` is `None`, before any API call.
* `exercise_data and "problem" in exercise_data` is a key test when
  `exercise_data` is a dict but a SUBSTRING test when `call_gemini_api`
  returned a failure string; in the latter case the subsequent
  `state["current_exercise"].update(exercise_data)` raises `ValueError`
  (updating a dict from a non-empty string), so the handler aborts and no
  `set_user_state` runs.
* on the dict path, `update` overwrites the keys present in the response and
  keeps the others. -/
def generate_exercise (o : ApiOutcome) (s : UserState) : HandlerResult :=
  match s.current_exercise with
  | none => ⟨none, [], 0⟩
  | some ex =>
    match call_gemini_structured o with
    | .robj d =>
      match d.problem with
      | some p =>
        ⟨some { s with
                bot_state := .waiting_for_exercise_answer,
                current_exercise := some { ex with
                  problem := some p,
                  solution := match d.solution with
                    | some q => some q
                    | none => ex.solution } },
          [genSuccessMsg p], 1⟩
      | none => ⟨some { s with bot_state := .idle }, [genFailMsg], 1⟩
    | .rstr m =>
      if m ≠ "" && pyIn "problem" m then
        ⟨none, [], 1⟩
      else
        ⟨some { s with bot_state := .idle }, [genFailMsg], 1⟩

/-- Welcome text of `start_command`. -/
def welcomeMsg : String :=
  "¡Hola! Soy tu compañero de estudio para Cálculo Diferencial. Tengo las siguientes funciones:\n\n" ++
  "📚 `/asesoria`: Dudas específicas sobre temas.\n" ++
  "💡 `/ejemplo`: Un ejemplo práctico de un tema.\n" ++
  "🧠 `/prueba`: Pon a prueba tus conocimientos.\n" ++
  "📖 `/dudas`: Apoyo para el Cuaderno Digital.\n" ++
  "📊 `/encuesta`: Ayúdame a mejorar.\n\n" ++
  "Estoy para ayudarte."

/-- Prompt text of `asesoria_command` (straight quotes of the source elided). -/
def asesoriaMsg : String :=
  "Por favor, dime tu duda y el nivel de dificultad. \nEj: ¿Qué es la derivada? nivel Fácil"

/-- Prompt text of `ejemplo_command`. -/
def ejemploMsg : String := "¡Claro! ¿Sobre qué tema de Cálculo Diferencial te gustaría un ejemplo?"

/-- Prompt text of `prueba_command` (topic buttons attached). -/
def pruebaMsg : String := "¡Excelente! Elige el tema:"

/-- Prompt text of `dudas_command`. -/
def dudasMsg : String :=
  "Has entrado a la sección de ayuda para el Cuaderno Digital.\n\n" ++
  "Por favor, escribe tu pregunta sobre cualquier parte del cuaderno y te ayudaré a resolverla."

/-- Reply of `encuesta_command`. -/
def encuestaMsg : String :=
  "¡Gracias por ayudarme a mejorar! Tu opinión es muy valiosa.\n\n" ++
  "Por favor, completa la siguiente encuesta:\nhttps://forms.gle/dtyB5o2FncCA7zMy7"

/-- Embeds the six `CommandHandler` registrations (src/main.py lines
169-216, 344-349).  An update with an unregistered command name matches no
handler (the `MessageHandler` filter excludes commands), so nothing runs. -/
def handle_command (name : String) (s : UserState) : HandlerResult :=
  if name = "start" then ⟨some default_state, [welcomeMsg], 0⟩
  else if name = "asesoria" then
    ⟨some { s with bot_state := .waiting_for_doubt }, [asesoriaMsg], 0⟩
  else if name = "ejemplo" then
    ⟨some { s with bot_state := .waiting_for_example_topic }, [ejemploMsg], 0⟩
  else if name = "prueba" then
    ⟨some { s with bot_state := .waiting_for_exercise_topic }, [pruebaMsg], 0⟩
  else if name = "dudas" then
    ⟨some { s with bot_state := .waiting_for_duda_cuaderno }, [dudasMsg], 0⟩
  else if name = "encuesta" then ⟨some s, [encuestaMsg], 0⟩
  else ⟨some s, [], 0⟩

/-- Case-insensitive consumption of `pat` at the head of `s`
(character-wise `Char.toLower` comparison); returns the remainder. -/
def ciStrip (pat : List Char) (s : List Char) : Option (List Char) :=
  match pat, s with
  | [], rest => some rest
  | _ :: _, [] => none
  | p :: ps, c :: cs => if p.toLower = c.toLower then ciStrip ps cs else none

/-- The three difficulty alternatives of the doubt regex. -/
def diffWords : List (List Char) := [("fácil").data, ("intermedio").data, ("avanzado").data]

/-- Matches the tail pattern of the doubt regex at the head of `s`:
one or more whitespace characters, then `nivel` (case-insensitive), then any
whitespace, then one of `fácil|intermedio|avanzado` (case-insensitive).
Since `nivel` and the alternatives start with non-whitespace characters,
consuming all whitespace greedily is equivalent to the regex semantics. -/
def matchTail (s : List Char) : Bool :=
  match s with
  | [] => false
  | c :: cs =>
    if c.isWhitespace then
      match ciStrip ("nivel").data (cs.dropWhile Char.isWhitespace) with
      | none => false
      | some s2 => diffWords.any (fun w => (ciStrip w (s2.dropWhile Char.isWhitespace)).isSome)
    else false

/-- For a suffix `t` of the input, finds the greedy width of the group
`(.+)` of a match starting at the head of `t`: the largest `k ≥ 1` such that
the first `k` characters contain no newline and the rest of the pattern
matches immediately after them. -/
def bestSplit (t : List Char) : Option Nat :=
  (List.range (t.length + 1)).reverse.find?
    (fun k => decide (1 ≤ k) && (t.take k).all (fun c => decide (c ≠ '\n')) && matchTail (t.drop k))

/-- `re.search` of the doubt pattern `(.+)\s+nivel\s*(fácil|intermedio|avanzado)`
with `re.IGNORECASE`: positions are tried left to right and the group `(.+)`
is greedy; on success returns group 1 (the doubt text). -/
def doubtSearchFrom : List Char → Option (List Char)
  | [] => none
  | c :: rest =>
    match bestSplit (c :: rest) with
    | some k => some ((c :: rest).take k)
    | none => doubtSearchFrom rest

/-- The doubt-pattern match of `handle_text_message` on a message text;
`some doubt` carries the matched group 1 stored in `last_asesoria_topic`. -/
def doubtMatch (txt : String) : Option String :=
  (doubtSearchFrom txt.data).map (fun l => ⟨l⟩)

/-- Existence-only form of the doubt-pattern search: some non-newline
character is immediately followed by a match of the tail pattern. -/
def matchExistsB : List Char → Bool
  | [] => false
  | c :: rest => (decide (c ≠ '\n') && matchTail rest) || matchExistsB rest

/-- Follow-up reply of the notebook-doubt branch. -/
def dudaFollowupMsg : String := "¿Tienes alguna otra duda sobre el cuaderno?"

/-- Follow-up reply of the doubt and deepen branches (deepen button attached). -/
def deepenPromptMsg : String := "¿Quieres profundizar en algo más?"

/-- Reply of the `waiting_for_doubt` branch on a non-matching text
(straight quotes of the source elided). -/
def formatErrorMsg : String := "Formato incorrecto. Ejemplo: ¿Qué es la derivada? nivel Fácil"

/-- Follow-up reply of the example branch. -/
def exampleFollowupMsg : String := "Espero que el ejemplo haya sido útil."

/-- Follow-up reply of the correct-answer branch (next-action buttons). -/
def nextActionPromptMsg : String := "¿Qué te gustaría hacer ahora?"

/-- Follow-up reply of the incorrect-answer branch (retry/solve buttons). -/
def resolutionPromptMsg : String := "¿Qué quieres hacer?"

/-- Embeds `handle_text_message` (src/main.py lines 219-284).  The final
`set_user_state` runs for every branch, including the fall-through for modes
without a text transition.  In the `waiting_for_exercise_answer` branch with
`current_exercise = None`, building the prompt evaluates
`exercise.get('problem')` on `None` and raises `AttributeError` before the
API call, so no `set_user_state` runs. -/
def handle_text_message (o : ApiOutcome) (txt : String) (s : UserState) : HandlerResult :=
  match s.bot_state with
  | .waiting_for_duda_cuaderno =>
    ⟨some s, [call_gemini_text o, dudaFollowupMsg], 1⟩
  | .waiting_for_doubt =>
    match doubtMatch txt with
    | some doubt =>
      ⟨some { s with
              bot_state := .waiting_for_deepen_topic,
              last_asesoria_topic := some doubt },
        [call_gemini_text o, deepenPromptMsg], 1⟩
    | none => ⟨some s, [formatErrorMsg], 0⟩
  | .waiting_for_deepen_topic =>
    ⟨some s, [call_gemini_text o, deepenPromptMsg], 1⟩
  | .waiting_for_example_topic =>
    ⟨some { s with bot_state := .idle }, [call_gemini_text o, exampleFollowupMsg], 1⟩
  | .waiting_for_exercise_answer =>
    match s.current_exercise with
    | none => ⟨none, [], 0⟩
    | some _ =>
      let verification := call_gemini_text o
      if isCorrectFeedback verification then
        ⟨some { s with bot_state := .waiting_for_next_action },
          [verification, nextActionPromptMsg], 1⟩
      else
        ⟨some { s with bot_state := .waiting_for_exercise_resolution },
          [verification, resolutionPromptMsg], 1⟩
  | _ => ⟨some s, [], 0⟩

/-- Python `pre in ...`-style `action.startswith(pre)`. -/
def pyStartsWith (pre s : String) : Bool := pre.data.isPrefixOf s.data

/-- `action.split("_", 1)[1]`: everything after the first underscore. -/
def afterUnderscore (s : String) : String :=
  ⟨(s.data.dropWhile (fun c => c ≠ '_')).drop 1⟩

/-- Python `int(...)` on the difficulty suffix: an optional sign followed by
at least one decimal digit; anything else raises `ValueError`. -/
def pyInt (s : List Char) : Option Int :=
  let digits : List Char → Option Nat := fun ds =>
    if ds.isEmpty then none
    else if ds.all Char.isDigit then
      some (ds.foldl (fun n c => 10 * n + (c.toNat - ('0').toNat)) 0)
    else none
  match s with
  | '-' :: ds => (digits ds).map (fun n => -(n : Int))
  | '+' :: ds => (digits ds).map (fun n => (n : Int))
  | ds => (digits ds).map (fun n => (n : Int))

/-- Reply of the topic-selection branch (difficulty buttons attached). -/
def chooseDiffMsg (topic : String) : String := "Tema: " ++ topic ++ ". Elige dificultad:"

/-- Notice edited into the chat before generating an exercise. -/
def generatingMsg (topic : String) (difficulty : Int) : String :=
  "OK. Generando ejercicio de " ++ topic ++ " (Nivel " ++ toString difficulty ++ ")..."

/-- Notice of the `next_action_similar` branch. -/
def similarMsg : String := "¡Perfecto! Generando otro ejercicio..."

/-- Reply of the `deepen_no`/`main_menu` branch. -/
def backToMenuMsg : String :=
  "De acuerdo, volviendo al menú principal. Usa /start para ver las opciones."

/-- Reply of the `resolution_retry` branch. -/
def retryMsg : String := "¡Claro! Tómate tu tiempo y escribe tu nueva respuesta."

/-- Reply of the `resolution_solve` branch around the stored solution. -/
def solutionMsg (sol : String) : String := "La solución es:\n\n" ++ sol

/-- Embeds `handle_callback_query` (src/main.py lines 287-323).  Branches are
selected by the `callback_data` string only; the current mode is never
consulted.  Crash points (each aborts before any `set_user_state`):
* `diff_<x>` with a non-integer `<x>`: `int(...)` raises `ValueError`;
* `diff_<n>` with `current_exercise = None`:
  `state["current_exercise"]["difficulty"] = n` raises `TypeError`;
* `next_action_similar` with `current_exercise = None`: `generate_exercise`
  raises `TypeError` reading the topic;
* `resolution_solve` with `current_exercise = None`:
  `state.get("current_exercise", {})` returns the stored `None` (the key is
  always present) and `.get("solution", ...)` raises `AttributeError`. -/
def handle_callback_query (o : ApiOutcome) (action : String) (s : UserState) : HandlerResult :=
  if pyStartsWith "topic_" action then
    let topic := afterUnderscore action
    ⟨some { s with
            bot_state := .waiting_for_exercise_difficulty,
            current_exercise := some { topic := topic } },
      [chooseDiffMsg topic], 0⟩
  else if pyStartsWith "diff_" action then
    match pyInt (afterUnderscore action).data with
    | none => ⟨none, [], 0⟩
    | some n =>
      match s.current_exercise with
      | none => ⟨none, [], 0⟩
      | some ex =>
        let s1 := { s with current_exercise := some { ex with difficulty := some n } }
        let r := generate_exercise o s1
        ⟨r.newState, generatingMsg ex.topic n :: r.sent, r.gatewayCalls⟩
  else if action = "deepen_no" || action = "main_menu" then
    ⟨some { s with bot_state := .idle, last_asesoria_topic := none }, [backToMenuMsg], 0⟩
  else if action = "next_action_similar" then
    let r := generate_exercise o s
    ⟨r.newState, similarMsg :: r.sent, r.gatewayCalls⟩
  else if action = "resolution_retry" then
    ⟨some { s with bot_state := .waiting_for_exercise_answer }, [retryMsg], 0⟩
  else if action = "resolution_solve" then
    match s.current_exercise with
    | none => ⟨none, [], 0⟩
    | some ex =>
      ⟨some { s with bot_state := .idle },
        [solutionMsg (ex.solution.getD "No se encontró la solución.")], 0⟩
  else ⟨some s, [], 0⟩

/-- Dispatch of one inbound update to its registered handler. -/
def handleEvent (o : ApiOutcome) (e : Event) (s : UserState) : HandlerResult :=
  match e with
  | .command n => handle_command n s
  | .text b => handle_text_message o b s
  | .button a => handle_callback_query o a s

/-- The record persisted in the store after one event: the handler's written
record, or the previous record when the handler raised before writing. -/
def stepState (o : ApiOutcome) (e : Event) (s : UserState) : UserState :=
  (handleEvent o e s).newState.getD s

/-- States reachable from the fresh-user record by any sequence of handled
events. -/
inductive Reachable : UserState → Prop
  | init : Reachable default_state
  | step {s : UserState} (h : Reachable s) (o : ApiOutcome) (e : Event) :
      Reachable (stepState o e s)

/-- States reachable from the fresh-user record by event sequences in which
a `resolution_retry` button press is only delivered while an exercise is
stored (as happens when buttons are pressed only in the modes that offer
them). -/
inductive ReachableG : UserState → Prop
  | init : ReachableG default_state
  | step {s : UserState} (h : ReachableG s) (o : ApiOutcome) (e : Event)
      (hg : e = .button "resolution_retry" → s.current_exercise.isSome) :
      ReachableG (stepState o e s)

/-- The exercise modes of the `currentExercise` presence invariant. -/
def exerciseModes : List Mode :=
  [.waiting_for_exercise_difficulty, .waiting_for_exercise_answer,
   .waiting_for_exercise_resolution, .waiting_for_next_action]

/-- The claimed invariant: an exercise record is present whenever the mode is
one of the four exercise modes. -/
def exerciseInv (s : UserState) : Prop :=
  s.bot_state ∈ exerciseModes → s.current_exercise.isSome

/-- Python `text.split('\n')` on a character list: `""` yields `[""]`, and a
separator at either end yields an empty piece there. -/
def splitNl : List Char → List (List Char)
  | [] => [[]]
  | c :: cs =>
    match splitNl cs with
    | [] => [[c]]
    | t :: ts => if c = '\n' then [] :: t :: ts else (c :: t) :: ts

/-- Leading-whitespace removal (the front half of Python `str.strip`). -/
def pyStripL (s : List Char) : List Char := s.dropWhile Char.isWhitespace

/-- Trailing-whitespace removal (the back half of Python `str.strip`). -/
def pyStripR (s : List Char) : List Char :=
  (s.reverse.dropWhile Char.isWhitespace).reverse

/-- Python `s.strip()` on a character list. -/
def pyStrip (s : List Char) : List Char := pyStripR (pyStripL s)

/-- The Telegram single-message limit used by `send_long_message`. -/
def MAX_LENGTH : Nat := 4096

/-- The chunking loop of `send_long_message`: greedily packs lines into the
current part, starting a new part when adding the next line (plus its
separator) would exceed the limit; the final part is appended after the
loop.  Each accumulation step prepends `'\n'`, so the first part may carry a
leading newline and the greedy check counts that separator. -/
def buildParts : List (List Char) → List Char → List (List Char)
  | [], current => [current]
  | line :: ls, current =>
    if current.length + line.length + 1 > MAX_LENGTH then
      current :: buildParts ls line
    else
      buildParts ls (current ++ '\n' :: line)

/-- Embeds `send_long_message` (src/main.py lines 132-149) as the sequence
of texts actually sent: a text within the limit goes out unmodified as one
message; otherwise the parts are stripped and only non-blank parts are sent,
in order. -/
def send_long_message (text : List Char) : List (List Char) :=
  if text.length ≤ MAX_LENGTH then [text]
  else ((buildParts (splitNl text) []).filter (fun p => !(pyStrip p).isEmpty)).map pyStrip

/-- The visible line content of a sequence of sent texts: all their lines,
each stripped, blank lines dropped. -/
def lineSeqs (xs : List (List Char)) : List (List Char) :=
  ((xs.flatMap splitNl).map pyStrip).filter (fun l => !l.isEmpty)

/-- A concrete over-limit text: a 4096-character line, then a line with
leading whitespace (4100 characters in total). -/
def sampleLongText : List Char :=
  List.replicate MAX_LENGTH 'a' ++ '\n' :: ("  x").data

/-!  Theorems.  Claim identifiers C1-C10 refer to the frozen claim list. -/

/-- Helper: the verdict scan succeeds exactly when some fixed keyword occurs,
case-insensitively, in the feedback text (the keywords are already
lower-case, so lowering them is a no-op). -/
theorem isCorrectFeedback_iff (f : String) :
    isCorrectFeedback f = true ↔
      ∃ k ∈ positive_keywords, pyIn (pyLower k) (pyLower f) = true := by
  have hlow : ∀ k ∈ positive_keywords, pyLower k = k := by decide
  unfold isCorrectFeedback
  rw [List.any_eq_true]
  constructor
  · rintro ⟨k, hk, hp⟩
    exact ⟨k, hk, by rw [hlow k hk]; exact hp⟩
  · rintro ⟨k, hk, hp⟩
    exact ⟨k, hk, by rw [hlow k hk] at hp; exact hp⟩

/-- Helper: reduction of `handle_text_message` in the answer-checking mode
with an exercise present. -/
theorem handle_text_answer (s : UserState) (ex : Exercise) (ans : String)
    (o : ApiOutcome)
    (hm : s.bot_state = .waiting_for_exercise_answer)
    (hex : s.current_exercise = some ex) :
    handle_text_message o ans s =
      (if isCorrectFeedback (call_gemini_text o) then
        ⟨some { s with bot_state := .waiting_for_next_action },
          [call_gemini_text o, nextActionPromptMsg], 1⟩
      else
        ⟨some { s with bot_state := .waiting_for_exercise_resolution },
          [call_gemini_text o, resolutionPromptMsg], 1⟩) := by
  obtain ⟨bs, lt, ce⟩ := s
  simp only at hm hex
  subst hm; subst hex
  by_cases h : isCorrectFeedback (call_gemini_text o) <;>
    simp [handle_text_message, h]

/-- C8: handling `/start` from any record and any gateway behaviour persists
exactly the default idle record, and doing it twice gives the same record
(the reset is idempotent). -/
theorem claim8_start_reset_idempotent (s : UserState) (o o' : ApiOutcome) :
    stepState o (.command "start") s = default_state ∧
    stepState o (.command "start") (stepState o' (.command "start") s) =
      default_state := by
  constructor <;> rfl

/-- C10: a button press is dispatched on the `callback_data` string alone:
in every mode and for every gateway behaviour, `resolution_retry` sets the
mode to `waiting_for_exercise_answer` (touching nothing else), and
`main_menu` and `deepen_no` set the mode to `idle` and clear
`last_asesoria_topic` (keeping the stored exercise). -/
theorem claim10_buttons_ignore_mode (s : UserState) (o : ApiOutcome) :
    stepState o (.button "resolution_retry") s =
      { s with bot_state := .waiting_for_exercise_answer } ∧
    stepState o (.button "main_menu") s =
      { s with bot_state := .idle, last_asesoria_topic := none } ∧
    stepState o (.button "deepen_no") s =
      { s with bot_state := .idle, last_asesoria_topic := none } := by
  refine ⟨rfl, rfl, rfl⟩

/-- C1 (code bug): with an exercise topic stored and difficulty awaited,
pressing `diff_3` under a gateway HTTP error, transport error or structured
JSON-parse failure does NOT fall back to `idle` with a retry message: every
fixed failure string contains `"problema"`, hence the substring `"problem"`,
so `exercise_data and "problem" in exercise_data` passes on the failure
STRING and `state["current_exercise"].update(exercise_data)` raises
`ValueError`; the handler aborts with the stored mode still
`waiting_for_exercise_difficulty` and no retry message sent.  Only the
empty-response failure reaches the intended fallback branch (mode `idle`,
retry message sent). -/
theorem claim1_generation_failure_bug :
    (let s : UserState :=
      { bot_state := .waiting_for_exercise_difficulty,
        last_asesoria_topic := none,
        current_exercise := some { topic := "Polinomios" } }
    pyIn "problem" errHttp = true ∧ pyIn "problem" errConn = true ∧
    (handleEvent .httpError (.button "diff_3") s).newState = none ∧
    stepState .httpError (.button "diff_3") s = s ∧
    genFailMsg ∉ (handleEvent .httpError (.button "diff_3") s).sent ∧
    (handleEvent .transportError (.button "diff_3") s).newState = none ∧
    (handleEvent (.content "respuesta rota" none) (.button "diff_3") s).newState
      = none ∧
    stepState .empty (.button "diff_3") s =
      { s with
        bot_state := .idle,
        current_exercise := some { topic := "Polinomios", difficulty := some 3 } } ∧
    genFailMsg ∈ (handleEvent .empty (.button "diff_3") s).sent) := by
  decide

/-- C7 (counterexample): the message returned for a structured JSON-parse
failure (a malformed response) is exactly the transport-failure
(service-unreachable) message, so the claimed distinction between the
service-unreachable message and the malformed/empty-response message fails
for the malformed case. -/
theorem claim7_parse_failure_message_not_distinct :
    call_gemini_structured (.content "respuesta no JSON" none) = .rstr errConn ∧
    call_gemini_structured .transportError = .rstr errConn ∧
    errConn ≠ errEmptyResp ∧ errConn ≠ errHttp := by
  decide

/-- C7 (amended): every gateway failure is normalized to a user-safe failure
string instead of an exception; the HTTP-error, transport-error and
empty-response messages are pairwise distinct; a structured JSON-parse
failure yields the transport-failure string (never a partial object). -/
theorem claim7_gateway_failures_safe (raw : String) (d : GenData) :
    call_gemini_text .httpError = errHttp ∧
    call_gemini_text .transportError = errConn ∧
    call_gemini_text .empty = errEmptyResp ∧
    call_gemini_structured .httpError = .rstr errHttp ∧
    call_gemini_structured .transportError = .rstr errConn ∧
    call_gemini_structured .empty = .rstr errEmptyResp ∧
    call_gemini_structured (.content raw none) =
      .rstr (if raw = "" then errEmptyResp else errConn) ∧
    call_gemini_structured (.content raw (some d)) =
      (if raw = "" then .rstr errEmptyResp else .robj d) ∧
    errHttp ≠ errConn ∧ errHttp ≠ errEmptyResp ∧ errConn ≠ errEmptyResp := by
  refine ⟨rfl, rfl, rfl, rfl, rfl, rfl, ?_, ?_, by decide, by decide, by decide⟩
  · by_cases h : raw = "" <;> simp [call_gemini_structured, h]
  · by_cases h : raw = "" <;> simp [call_gemini_structured, h]

/-- C9: when the gateway fails while an answer is being verified, the failure
string is scanned for keywords exactly like genuine feedback; no fixed
failure string contains a keyword, so the event is classified as an
incorrect answer and the mode moves to `waiting_for_exercise_resolution`. -/
theorem claim9_gateway_failure_counts_incorrect (s : UserState) (ex : Exercise)
    (ans : String) (o : ApiOutcome)
    (hm : s.bot_state = .waiting_for_exercise_answer)
    (hex : s.current_exercise = some ex)
    (ho : o = .httpError ∨ o = .transportError ∨ o = .empty ∨ o = .noKey) :
    stepState o (.text ans) s =
      { s with bot_state := .waiting_for_exercise_resolution } ∧
    (handleEvent o (.text ans) s).sent =
      [call_gemini_text o, resolutionPromptMsg] ∧
    (handleEvent o (.text ans) s).gatewayCalls = 1 ∧
    isCorrectFeedback (call_gemini_text o) = false := by
  have hred := handle_text_answer s ex ans o hm hex
  have hkw : isCorrectFeedback (call_gemini_text o) = false := by
    rcases ho with rfl | rfl | rfl | rfl <;> decide
  simp only [hkw, Bool.false_eq_true, if_false] at hred
  refine ⟨?_, ?_, ?_, hkw⟩ <;>
    simp [stepState, handleEvent, hred]

/-- C9 witness. -/
theorem claim9_witness :
    (⟨.waiting_for_exercise_answer, none,
        some ⟨"Límites", some 2, some "P", some "S"⟩⟩ : UserState).bot_state
      = .waiting_for_exercise_answer ∧
    stepState .httpError (.text "x+1")
        ⟨.waiting_for_exercise_answer, none,
          some ⟨"Límites", some 2, some "P", some "S"⟩⟩ =
      { bot_state := .waiting_for_exercise_resolution,
        last_asesoria_topic := none,
        current_exercise := some ⟨"Límites", some 2, some "P", some "S"⟩ } :=
  ⟨rfl,
    (claim9_gateway_failure_counts_incorrect
      ⟨.waiting_for_exercise_answer, none,
        some ⟨"Límites", some 2, some "P", some "S"⟩⟩
      ⟨"Límites", some 2, some "P", some "S"⟩ "x+1" .httpError rfl rfl
      (Or.inl rfl)).1⟩

/-- C4: in answer-checking mode with an exercise stored, genuine feedback
text yields verdict `correct` exactly when it contains one of the fixed
keywords case-insensitively; the mode then becomes
`waiting_for_next_action`, otherwise `waiting_for_exercise_resolution`.
The spec's two examples are included. -/
theorem claim4_keyword_verdict (s : UserState) (ex : Exercise)
    (feedback ans : String)
    (hm : s.bot_state = .waiting_for_exercise_answer)
    (hex : s.current_exercise = some ex)
    (hf : feedback ≠ "") :
    stepState (.content feedback none) (.text ans) s =
      { s with bot_state :=
          if isCorrectFeedback feedback then .waiting_for_next_action
          else .waiting_for_exercise_resolution } ∧
    ((stepState (.content feedback none) (.text ans) s).bot_state =
        .waiting_for_next_action ↔
      ∃ k ∈ positive_keywords, pyIn (pyLower k) (pyLower feedback) = true) ∧
    isCorrectFeedback "¡Excelente trabajo!" = true ∧
    isCorrectFeedback "Casi, revisa el signo" = false := by
  have hcall : call_gemini_text (.content feedback none) = feedback := by
    simp [call_gemini_text, hf]
  have hred := handle_text_answer s ex ans (.content feedback none) hm hex
  rw [hcall] at hred
  have hstep : stepState (.content feedback none) (.text ans) s =
      { s with bot_state :=
          if isCorrectFeedback feedback then .waiting_for_next_action
          else .waiting_for_exercise_resolution } := by
    by_cases h : isCorrectFeedback feedback <;>
      simp [stepState, handleEvent, hred, h]
  refine ⟨hstep, ?_, by decide, by decide⟩
  rw [hstep, ← isCorrectFeedback_iff]
  by_cases h : isCorrectFeedback feedback <;> simp [h]

/-- C4 witness. -/
theorem claim4_witness :
    (⟨.waiting_for_exercise_answer, none,
        some ⟨"Límites", some 2, some "P", some "S"⟩⟩ : UserState).bot_state
      = .waiting_for_exercise_answer ∧
    ("¡Excelente trabajo!" : String) ≠ "" ∧
    isCorrectFeedback "¡Excelente trabajo!" = true :=
  ⟨rfl, by decide,
    (claim4_keyword_verdict
      ⟨.waiting_for_exercise_answer, none,
        some ⟨"Límites", some 2, some "P", some "S"⟩⟩
      ⟨"Límites", some 2, some "P", some "S"⟩ "¡Excelente trabajo!" "x+1"
      rfl rfl (by decide)).2.2.1⟩

/-- C2 (counterexample): the state with mode `waiting_for_exercise_answer`
and no stored exercise is reachable from the fresh-user record in one step
(a `resolution_retry` button press in `idle`), and it violates the claimed
presence invariant. -/
theorem claim2_retry_in_idle_breaks_invariant :
    Reachable
      { bot_state := .waiting_for_exercise_answer,
        last_asesoria_topic := none, current_exercise := none } ∧
    ¬ exerciseInv
      { bot_state := .waiting_for_exercise_answer,
        last_asesoria_topic := none, current_exercise := none } := by
  constructor
  · have h := Reachable.step Reachable.init ApiOutcome.empty
      (Event.button "resolution_retry")
    have e : stepState ApiOutcome.empty (Event.button "resolution_retry")
        default_state =
      { bot_state := .waiting_for_exercise_answer,
        last_asesoria_topic := none, current_exercise := none } := rfl
    rwa [e] at h
  · intro hinv
    have := hinv (by decide)
    simp at this

/-- C3 (counterexample): a `resolution_retry` button press in mode `idle` is
not covered by any transition of the table, yet it changes the persisted
state. -/
theorem claim3_retry_button_changes_state :
    stepState .empty (.button "resolution_retry") default_state ≠
      default_state ∧
    (stepState .empty (.button "resolution_retry") default_state).bot_state =
      .waiting_for_exercise_answer ∧
    default_state.bot_state = .idle := by
  decide

/-- C3 (amended): an unregistered command, a free text in a mode with no
text transition, and a button press whose `callback_data` matches no
recognized action id all leave the persisted state unchanged, send nothing
and make no gateway call; but a recognized button id (here
`resolution_retry`) runs its transition in every mode, including modes for
which the table defines none. -/
theorem claim3_amended_frame (s : UserState) (o : ApiOutcome) (n t b : String)
    (hn : n ∉ (["start", "asesoria", "ejemplo", "prueba", "dudas",
                "encuesta"] : List String))
    (hm : s.bot_state ∈ ([.idle, .waiting_for_exercise_topic,
        .waiting_for_exercise_difficulty, .waiting_for_exercise_resolution,
        .waiting_for_next_action] : List Mode))
    (hb1 : pyStartsWith "topic_" b = false)
    (hb2 : pyStartsWith "diff_" b = false)
    (hb3 : b ∉ (["deepen_no", "main_menu", "next_action_similar",
                 "resolution_retry", "resolution_solve"] : List String)) :
    handleEvent o (.command n) s = ⟨some s, [], 0⟩ ∧
    handleEvent o (.text t) s = ⟨some s, [], 0⟩ ∧
    handleEvent o (.button b) s = ⟨some s, [], 0⟩ ∧
    stepState o (.button "resolution_retry") s =
      { s with bot_state := .waiting_for_exercise_answer } := by
  simp only [List.mem_cons, List.not_mem_nil, or_false, not_or] at hn hb3
  obtain ⟨hn1, hn2, hn3, hn4, hn5, hn6⟩ := hn
  obtain ⟨hd1, hd2, hd3, hd4, hd5⟩ := hb3
  refine ⟨?_, ?_, ?_, rfl⟩
  · simp [handleEvent, handle_command, hn1, hn2, hn3, hn4, hn5, hn6]
  · obtain ⟨bs, lt, ce⟩ := s
    simp only [List.mem_cons, List.not_mem_nil, or_false] at hm
    rcases hm with rfl | rfl | rfl | rfl | rfl <;> simp [handleEvent, handle_text_message]
  · simp [handleEvent, handle_callback_query, hb1, hb2, hd1, hd2, hd3, hd4, hd5]

/-- C3 witness. -/
theorem claim3_witness :
    ("hola" : String) ∉ (["start", "asesoria", "ejemplo", "prueba", "dudas",
        "encuesta"] : List String) ∧
    default_state.bot_state ∈ ([.idle, .waiting_for_exercise_topic,
        .waiting_for_exercise_difficulty, .waiting_for_exercise_resolution,
        .waiting_for_next_action] : List Mode) ∧
    handleEvent .empty (.command "hola") default_state =
      ⟨some default_state, [], 0⟩ ∧
    handleEvent .empty (.text "2x") default_state =
      ⟨some default_state, [], 0⟩ ∧
    handleEvent .empty (.button "algo_raro") default_state =
      ⟨some default_state, [], 0⟩ :=
  ⟨by decide, by decide,
    (claim3_amended_frame default_state .empty "hola" "2x" "algo_raro"
      (by decide) (by decide) (by decide) (by decide) (by decide)).1,
    (claim3_amended_frame default_state .empty "hola" "2x" "algo_raro"
      (by decide) (by decide) (by decide) (by decide) (by decide)).2.1,
    (claim3_amended_frame default_state .empty "hola" "2x" "algo_raro"
      (by decide) (by decide) (by decide) (by decide) (by decide)).2.2.1⟩

/-- Helper: if some non-newline character is immediately followed by a match
of the tail pattern, the full backtracking search succeeds. -/
theorem doubtSearchFrom_isSome_of (cs : List Char)
    (h : matchExistsB cs = true) : (doubtSearchFrom cs).isSome := by
  induction cs with
  | nil => simp [matchExistsB] at h
  | cons c rest ih =>
    unfold doubtSearchFrom
    cases hb : bestSplit (c :: rest) with
    | some k => simp
    | none =>
      simp only [matchExistsB, Bool.or_eq_true, Bool.and_eq_true,
        decide_eq_true_eq] at h
      rcases h with ⟨hc, ht⟩ | h2
      · exfalso
        have hone : ∃ x ∈ (List.range ((c :: rest).length + 1)).reverse,
            (fun k => decide (1 ≤ k) &&
              ((c :: rest).take k).all (fun a => decide (a ≠ '\n')) &&
              matchTail ((c :: rest).drop k)) x = true := by
          refine ⟨1, ?_, ?_⟩
          · simp [List.mem_reverse, List.mem_range]
          · simp [hc, ht]
        have := List.find?_isSome.mpr hone
        rw [show (List.range ((c :: rest).length + 1)).reverse.find?
            (fun k => decide (1 ≤ k) &&
              ((c :: rest).take k).all (fun a => decide (a ≠ '\n')) &&
              matchTail ((c :: rest).drop k)) = bestSplit (c :: rest) from rfl,
          hb] at this
        simp at this
      · have := ih h2
        simpa using this

/-- Helper: placing a non-newline character directly before a suffix matched
by the tail pattern produces a text on which the search must succeed,
whatever precedes it. -/
theorem matchExistsB_append (u : List Char) (d : Char) (sfx : List Char)
    (hd : d ≠ '\n') (hs : matchTail sfx = true) :
    matchExistsB (u ++ d :: sfx) = true := by
  induction u with
  | nil => simp [matchExistsB, hd, hs]
  | cons c u ih => simp [matchExistsB, ih]

/-- C6: in mode `waiting_for_doubt`, a free text consisting of any non-empty
newline-free prefix followed by ` nivel fácil`, ` nivel Intermedio` or
` nivel AVANZADO` matches the doubt pattern (the difficulty words are
compared case-insensitively), while `¿Qué es la derivada? nivel rápido`
does not; and on any non-matching text the handler sends the format-error
message and leaves the state unchanged (mode stays `waiting_for_doubt`). -/
theorem claim6_doubt_pattern (cs : List Char) (s : UserState) (txt : String)
    (o : ApiOutcome)
    (hcs : cs ≠ []) (hnl : ∀ c ∈ cs, c ≠ '\n')
    (hb : s.bot_state = .waiting_for_doubt)
    (hnm : doubtMatch txt = none) :
    (doubtMatch ⟨cs ++ (" nivel fácil").data⟩).isSome ∧
    (doubtMatch ⟨cs ++ (" nivel Intermedio").data⟩).isSome ∧
    (doubtMatch ⟨cs ++ (" nivel AVANZADO").data⟩).isSome ∧
    doubtMatch "¿Qué es la derivada? nivel rápido" = none ∧
    handleEvent o (.text txt) s = ⟨some s, [formatErrorMsg], 0⟩ ∧
    stepState o (.text txt) s = s := by
  obtain ⟨L, d, rfl⟩ : ∃ L d, cs = L ++ [d] := by
    rcases List.eq_nil_or_concat cs with h | ⟨L, d, h⟩
    · exact absurd h hcs
    · exact ⟨L, d, by simpa [List.concat_eq_append] using h⟩
  have hd : d ≠ '\n' := hnl d (by simp)
  have accept : ∀ sfx : List Char, matchTail sfx = true →
      (doubtMatch ⟨(L ++ [d]) ++ sfx⟩).isSome := by
    intro sfx hs
    have : (L ++ [d]) ++ sfx = L ++ d :: sfx := by simp
    rw [this]
    have hex := matchExistsB_append L d sfx hd hs
    have := doubtSearchFrom_isSome_of (L ++ d :: sfx) hex
    simpa [doubtMatch] using this
  refine ⟨accept _ (by decide), accept _ (by decide), accept _ (by decide),
    by decide, ?_, ?_⟩
  · obtain ⟨bs, lt, ce⟩ := s
    simp only at hb
    subst hb
    simp [handleEvent, handle_text_message, hnm]
  · obtain ⟨bs, lt, ce⟩ := s
    simp only at hb
    subst hb
    simp [stepState, handleEvent, handle_text_message, hnm]

/-- C6 witness. -/
theorem claim6_witness :
    ("¿Qué es la derivada?").data ≠ [] ∧
    (∀ c ∈ ("¿Qué es la derivada?").data, c ≠ '\n') ∧
    doubtMatch "sin(x) nivel rápido" = none ∧
    (doubtMatch ⟨("¿Qué es la derivada?").data ++ (" nivel fácil").data⟩).isSome :=
  ⟨by decide, by decide, by decide,
    (claim6_doubt_pattern ("¿Qué es la derivada?").data
      ⟨.waiting_for_doubt, none, none⟩ "sin(x) nivel rápido" .empty
      (by decide) (by decide) rfl (by decide)).1⟩

/-- Helper: whenever `generate_exercise` reaches its `set_user_state`, the
written record still carries an exercise (the crash-free paths require the
stored exercise and either extend or keep it). -/
theorem generate_exercise_some_inv (o : ApiOutcome) (s s' : UserState)
    (h : (generate_exercise o s).newState = some s') :
    s'.current_exercise.isSome := by
  cases hce : s.current_exercise with
  | none => simp [generate_exercise, hce] at h
  | some ex =>
    cases hcall : call_gemini_structured o with
    | robj d =>
      cases hd : d.problem with
      | some p =>
        simp only [generate_exercise, hce, hcall, hd, Option.some.injEq] at h
        rw [← h]
        simp
      | none =>
        simp only [generate_exercise, hce, hcall, hd, Option.some.injEq] at h
        rw [← h]
        simp [hce]
    | rstr m =>
      by_cases hm : (decide ¬m = "" && pyIn "problem" m) = true
      · have hm' : ¬m = "" ∧ pyIn "problem" m = true := by simpa using hm
        simp [generate_exercise, hce, hcall, hm'.1, hm'.2] at h
      · simp only [Bool.not_eq_true] at hm
        simp only [generate_exercise, hce, hcall, hm, Bool.false_eq_true,
          if_false, Option.some.injEq] at h
        rw [← h]
        simp [hce]

/-- Helper: one handled event preserves the exercise-presence invariant,
provided a `resolution_retry` press only arrives while an exercise is
stored. -/
theorem exerciseInv_step (s : UserState) (o : ApiOutcome) (e : Event)
    (hinv : exerciseInv s)
    (hg : e = .button "resolution_retry" → s.current_exercise.isSome) :
    exerciseInv (stepState o e s) := by
  cases e with
  | command n =>
    simp only [stepState, handleEvent, handle_command]
    split_ifs <;> dsimp only [Option.getD_some] <;>
      first
        | exact hinv
        | (intro hmem; simp [exerciseModes, default_state] at hmem)
  | text b =>
    obtain ⟨bs, lt, ce⟩ := s
    cases bs
    case waiting_for_doubt =>
      cases hdm : doubtMatch b with
      | some doubt =>
        simp only [stepState, handleEvent, handle_text_message, hdm,
          Option.getD_some]
        intro hmem
        simp [exerciseModes] at hmem
      | none =>
        simp only [stepState, handleEvent, handle_text_message, hdm,
          Option.getD_some]
        exact hinv
    case waiting_for_example_topic =>
      intro hmem
      simp [stepState, handleEvent, handle_text_message, exerciseModes] at hmem
    case waiting_for_exercise_answer =>
      cases ce with
      | none => exact hinv
      | some ex =>
        by_cases hv : isCorrectFeedback (call_gemini_text o) = true
        · simp only [stepState, handleEvent, handle_text_message, hv,
            if_true, Option.getD_some]
          intro _
          simp
        · simp only [stepState, handleEvent, handle_text_message,
            Bool.not_eq_true] at hv ⊢
          simp only [hv, Bool.false_eq_true, if_false, Option.getD_some]
          intro _
          simp
    all_goals exact hinv
  | button a =>
    simp only [stepState, handleEvent, handle_callback_query]
    split_ifs with h1 h2 h3 h4 h5 h6
    · intro _; simp
    · cases hpi : pyInt (afterUnderscore a).data with
      | none => exact hinv
      | some n =>
        cases hce : s.current_exercise with
        | none => simp only [hce]; exact hinv
        | some ex =>
          simp only [hce]
          cases hr : (generate_exercise o
              { s with current_exercise := some { ex with difficulty := some n } }).newState with
          | none => simp only [hr, Option.getD_none]; exact hinv
          | some s' =>
            simp only [hr, Option.getD_some]
            intro _
            exact generate_exercise_some_inv o _ s' hr
    · intro hmem; simp [exerciseModes] at hmem
    · cases hr : (generate_exercise o s).newState with
      | none => simp only [hr, Option.getD_none]; exact hinv
      | some s' =>
        simp only [hr, Option.getD_some]
        intro _
        exact generate_exercise_some_inv o s s' hr
    · intro _
      simpa using hg (by rw [h5])
    · cases hce : s.current_exercise with
      | none => simp only [hce]; exact hinv
      | some ex =>
        simp only [hce, Option.getD_some]
        intro hmem
        simp [exerciseModes] at hmem
    · exact hinv

/-- C2 (amended): along every event sequence from the fresh-user record in
which each `resolution_retry` press arrives while an exercise is stored (as
holds when buttons are pressed only in the modes that offer them), every
reachable state carries an exercise whenever its mode is one of the four
exercise modes. -/
theorem claim2_amended_invariant (s : UserState) (h : ReachableG s) :
    exerciseInv s := by
  induction h with
  | init => intro hmem; simp [default_state, exerciseModes] at hmem
  | step h o e hg ih => exact exerciseInv_step _ o e ih hg

/-- C2 witness. -/
theorem claim2_witness :
    ReachableG
      { bot_state := .waiting_for_exercise_difficulty,
        last_asesoria_topic := none,
        current_exercise := some { topic := "Polinomios" } } ∧
    ({ bot_state := .waiting_for_exercise_difficulty,
       last_asesoria_topic := none,
       current_exercise := some { topic := "Polinomios" } } : UserState).bot_state
      ∈ exerciseModes ∧
    ({ bot_state := .waiting_for_exercise_difficulty,
       last_asesoria_topic := none,
       current_exercise := some { topic := "Polinomios" } } : UserState).current_exercise.isSome := by
  have hr : ReachableG
      { bot_state := .waiting_for_exercise_difficulty,
        last_asesoria_topic := none,
        current_exercise := some { topic := "Polinomios" } } := by
    have h := ReachableG.step ReachableG.init ApiOutcome.empty
      (Event.button "topic_Polinomios") (fun hh => absurd hh (by decide))
    have e : stepState ApiOutcome.empty (Event.button "topic_Polinomios")
        default_state =
      { bot_state := .waiting_for_exercise_difficulty,
        last_asesoria_topic := none,
        current_exercise := some { topic := "Polinomios" } } := rfl
    rwa [e] at h
  exact ⟨hr, by decide, claim2_amended_invariant _ hr (by decide)⟩

/-- Helper: `splitNl` never returns the empty list. -/
theorem splitNl_ne_nil (cs : List Char) : splitNl cs ≠ [] := by
  cases cs with
  | nil => simp [splitNl]
  | cons c cs =>
    cases h : splitNl cs with
    | nil => simp [splitNl, h]
    | cons t ts =>
      simp only [splitNl, h]
      split <;> simp

/-- Helper: unfolding `splitNl` across a leading newline. -/
theorem splitNl_cons_newline (cs : List Char) :
    splitNl ('\n' :: cs) = [] :: splitNl cs := by
  cases h : splitNl cs with
  | nil => exact absurd h (splitNl_ne_nil cs)
  | cons t ts => simp [splitNl, h]

/-- Helper: unfolding `splitNl` across a leading non-newline character. -/
theorem splitNl_cons_other (c : Char) (cs : List Char) (hc : c ≠ '\n') :
    splitNl (c :: cs) = (c :: (splitNl cs).headI) :: (splitNl cs).tail := by
  cases h : splitNl cs with
  | nil => exact absurd h (splitNl_ne_nil cs)
  | cons t ts => simp [splitNl, h, hc]

/-- Helper: the head of a non-empty list is a member. -/
theorem headI_mem_of_ne_nil {α : Type} [Inhabited α] (l : List α)
    (h : l ≠ []) : l.headI ∈ l := by
  cases l with
  | nil => exact absurd rfl h
  | cons a l => simp

/-- Helper: `splitNl` distributes over a newline join. -/
theorem splitNl_append_newline (a b : List Char) :
    splitNl (a ++ '\n' :: b) = splitNl a ++ splitNl b := by
  induction a with
  | nil =>
    rw [List.nil_append, splitNl_cons_newline]
    rfl
  | cons c a ih =>
    by_cases hc : c = '\n'
    · subst hc
      rw [List.cons_append, splitNl_cons_newline, splitNl_cons_newline, ih]
      simp
    · rw [List.cons_append, splitNl_cons_other c _ hc,
        splitNl_cons_other c a hc, ih]
      cases h : splitNl a with
      | nil => exact absurd h (splitNl_ne_nil a)
      | cons t ts => simp

/-- Helper: a newline-free text is a single line. -/
theorem splitNl_no_newline (l : List Char) (h : ∀ c ∈ l, c ≠ '\n') :
    splitNl l = [l] := by
  induction l with
  | nil => simp [splitNl]
  | cons c l ih =>
    rw [splitNl_cons_other c l (h c (by simp)),
      ih (fun x hx => h x (by simp [hx]))]
    simp

/-- Helper: every line produced by `splitNl` is newline-free. -/
theorem mem_splitNl_no_newline (cs l : List Char)
    (hl : l ∈ splitNl cs) : ∀ c ∈ l, c ≠ '\n' := by
  induction cs generalizing l with
  | nil =>
    simp only [splitNl, List.mem_singleton] at hl
    subst hl; simp
  | cons c cs ih =>
    by_cases hc : c = '\n'
    · subst hc
      rw [splitNl_cons_newline] at hl
      rcases List.mem_cons.mp hl with rfl | hl
      · simp
      · exact ih l hl
    · rw [splitNl_cons_other c cs hc] at hl
      rcases List.mem_cons.mp hl with rfl | hl
      · intro x hx
        rcases List.mem_cons.mp hx with rfl | hx
        · exact hc
        · exact ih (splitNl cs).headI
            (headI_mem_of_ne_nil _ (splitNl_ne_nil cs)) x hx
      · exact ih l (List.mem_of_mem_tail hl)

/-- Helper: the characters of every line come from the split text. -/
theorem mem_splitNl_subset (cs l : List Char) (hl : l ∈ splitNl cs) :
    ∀ c ∈ l, c ∈ cs := by
  induction cs generalizing l with
  | nil =>
    simp only [splitNl, List.mem_singleton] at hl
    subst hl; simp
  | cons c cs ih =>
    by_cases hc : c = '\n'
    · subst hc
      rw [splitNl_cons_newline] at hl
      rcases List.mem_cons.mp hl with rfl | hl
      · simp
      · intro x hx
        exact List.mem_cons_of_mem _ (ih l hl x hx)
    · rw [splitNl_cons_other c cs hc] at hl
      rcases List.mem_cons.mp hl with rfl | hl
      · intro x hx
        rcases List.mem_cons.mp hx with rfl | hx
        · simp
        · exact List.mem_cons_of_mem _
            (ih (splitNl cs).headI
              (headI_mem_of_ne_nil _ (splitNl_ne_nil cs)) x hx)
      · intro x hx
        exact List.mem_cons_of_mem _ (ih l (List.mem_of_mem_tail hl) x hx)

/-- Helper: `dropWhile` over an append whose left part is dropped whole. -/
theorem dropWhile_append_of_nil {p : Char → Bool} {l : List Char}
    (r : List Char) (h : l.dropWhile p = []) :
    (l ++ r).dropWhile p = r.dropWhile p := by
  induction l with
  | nil => simp
  | cons a l ih =>
    rw [List.dropWhile_cons] at h
    by_cases ha : p a
    · rw [List.cons_append, List.dropWhile_cons, if_pos ha]
      exact ih (by rwa [if_pos ha] at h)
    · rw [if_neg ha] at h
      exact absurd h (by simp)

/-- Helper: `dropWhile` over an append whose left part survives. -/
theorem dropWhile_append_of_ne_nil {p : Char → Bool} {l : List Char}
    (r : List Char) (h : l.dropWhile p ≠ []) :
    (l ++ r).dropWhile p = l.dropWhile p ++ r := by
  induction l with
  | nil => simp at h
  | cons a l ih =>
    rw [List.dropWhile_cons] at h ⊢
    by_cases ha : p a
    · rw [if_pos ha] at h ⊢
      rw [List.cons_append, List.dropWhile_cons, if_pos ha]
      exact ih h
    · rw [if_neg ha]
      rw [List.cons_append, List.dropWhile_cons, if_neg ha]

/-- Helper: stripping from the right ignores a trailing whitespace char. -/
theorem pyStripR_append_ws (x : List Char) (c : Char)
    (h : c.isWhitespace) : pyStripR (x ++ [c]) = pyStripR x := by
  unfold pyStripR
  rw [List.reverse_append, List.reverse_singleton, List.singleton_append,
    List.dropWhile_cons, if_pos h]

/-- Helper: stripping from the right keeps a trailing non-whitespace char. -/
theorem pyStripR_append_not_ws (x : List Char) (c : Char)
    (h : ¬ c.isWhitespace) : pyStripR (x ++ [c]) = x ++ [c] := by
  unfold pyStripR
  rw [List.reverse_append, List.reverse_singleton, List.singleton_append,
    List.dropWhile_cons, if_neg h, List.reverse_cons, List.reverse_reverse]

/-- Helper: stripping ignores a leading whitespace char. -/
theorem pyStrip_cons_ws (c : Char) (t : List Char)
    (h : c.isWhitespace) : pyStrip (c :: t) = pyStrip t := by
  unfold pyStrip pyStripL
  rw [List.dropWhile_cons, if_pos h]

/-- Helper: stripping ignores a trailing whitespace char. -/
theorem pyStrip_append_ws (t : List Char) (c : Char)
    (h : c.isWhitespace) : pyStrip (t ++ [c]) = pyStrip t := by
  unfold pyStrip pyStripL
  by_cases hl : t.dropWhile Char.isWhitespace = []
  · rw [dropWhile_append_of_nil [c] hl, hl, List.dropWhile_cons, if_pos h]
    rfl
  · rw [dropWhile_append_of_ne_nil [c] hl, pyStripR_append_ws _ c h]

/-- Helper: a list strips to `[]` exactly when all its characters are
whitespace. -/
theorem pyStrip_eq_nil_iff (l : List Char) :
    pyStrip l = [] ↔ ∀ c ∈ l, c.isWhitespace := by
  unfold pyStrip pyStripR pyStripL
  rw [List.reverse_eq_nil_iff, List.dropWhile_eq_nil_iff]
  constructor
  · intro h c hc
    by_cases hmem : c ∈ l.dropWhile Char.isWhitespace
    · exact h c (by simpa using hmem)
    · have hsplit := List.takeWhile_append_dropWhile
        (p := Char.isWhitespace) (l := l)
      rw [← hsplit] at hc
      rcases List.mem_append.mp hc with htk | hdw
      · exact List.mem_takeWhile_imp htk
      · exact absurd hdw hmem
  · intro h c hc
    have : c ∈ l := by
      have hsuf := List.dropWhile_suffix (l := l) Char.isWhitespace
      exact hsuf.subset (by simpa using hc)
    exact h c this

/-- Helper: the first character surviving `dropWhile` refutes the predicate. -/
theorem head_dropWhile_not {p : Char → Bool} (l : List Char)
    (h : l.dropWhile p ≠ []) : p ((l.dropWhile p).headI) = false := by
  induction l with
  | nil => simp at h
  | cons a l ih =>
    rw [List.dropWhile_cons] at h ⊢
    by_cases ha : p a
    · rw [if_pos ha] at h ⊢
      exact ih h
    · rw [if_neg ha]
      simpa using ha

/-- Helper: the right-strip of a list is one of its prefixes. -/
theorem pyStripR_prefix (y : List Char) : pyStripR y <+: y := by
  unfold pyStripR
  have hsuf := List.dropWhile_suffix (l := y.reverse) Char.isWhitespace
  obtain ⟨u, hu⟩ := hsuf
  refine ⟨u.reverse, ?_⟩
  have : y.reverse.reverse = (u ++ y.reverse.dropWhile Char.isWhitespace).reverse := by
    rw [hu]
  rw [List.reverse_reverse, List.reverse_append] at this
  exact this.symm

/-- Helper: a non-empty prefix shares its head with the whole list. -/
theorem headI_of_prefix {l y : List Char} (h : l <+: y) (hne : l ≠ []) :
    l.headI = y.headI := by
  obtain ⟨r, rfl⟩ := h
  cases l with
  | nil => exact absurd rfl hne
  | cons a l => simp

/-- Helper: a non-empty stripped list contains a non-whitespace character. -/
theorem pyStrip_has_non_ws (q : List Char) (h : pyStrip q ≠ []) :
    ∃ c ∈ pyStrip q, ¬ c.isWhitespace := by
  have hLne : pyStripL q ≠ [] := by
    intro hnil
    apply h
    unfold pyStrip
    rw [hnil]
    rfl
  have hpre : pyStrip q <+: pyStripL q := pyStripR_prefix (pyStripL q)
  have hhead : (pyStrip q).headI = (pyStripL q).headI := headI_of_prefix hpre h
  refine ⟨(pyStrip q).headI, headI_mem_of_ne_nil _ h, ?_⟩
  rw [hhead]
  have hw := head_dropWhile_not (p := Char.isWhitespace) q
    (by simpa [pyStripL] using hLne)
  simpa [pyStripL] using hw

/-- Helper: stripping never lengthens a list. -/
theorem pyStrip_length_le (l : List Char) :
    (pyStrip l).length ≤ l.length := by
  have h1 : (pyStrip l).length ≤ (pyStripL l).length := by
    have := (List.dropWhile_suffix (l := (pyStripL l).reverse)
      Char.isWhitespace).length_le
    unfold pyStrip pyStripR
    simpa using this
  have h2 : (pyStripL l).length ≤ l.length :=
    (List.dropWhile_suffix (l := l) Char.isWhitespace).length_le
  omega

/-- Helper: appending one non-newline character extends the last line. -/
theorem splitNl_append_char (a : List Char) (c : Char) (hc : c ≠ '\n') :
    ∃ Y y, splitNl a = Y ++ [y] ∧ splitNl (a ++ [c]) = Y ++ [y ++ [c]] := by
  induction a with
  | nil =>
    refine ⟨[], [], by simp [splitNl], ?_⟩
    rw [List.nil_append, splitNl_no_newline [c] (by simpa using hc)]
    simp
  | cons d a ih =>
    obtain ⟨Y, y, h1, h2⟩ := ih
    by_cases hd : d = '\n'
    · subst hd
      refine ⟨[] :: Y, y, ?_, ?_⟩
      · rw [splitNl_cons_newline, h1]; rfl
      · rw [List.cons_append, splitNl_cons_newline, h2]; rfl
    · cases Y with
      | nil =>
        simp only [List.nil_append] at h1 h2
        refine ⟨[], d :: y, ?_, ?_⟩
        · rw [splitNl_cons_other d a hd, h1]; simp
        · rw [List.cons_append, splitNl_cons_other d _ hd, h2]; simp
      | cons z zs =>
        refine ⟨(d :: z) :: zs, y, ?_, ?_⟩
        · rw [splitNl_cons_other d a hd, h1]; simp
        · rw [List.cons_append, splitNl_cons_other d _ hd, h2]; simp

/-- Helper: the visible lines of one text, unfolded. -/
theorem lineSeqs_singleton (x : List Char) :
    lineSeqs [x] = ((splitNl x).map pyStrip).filter (fun l => !l.isEmpty) := by
  unfold lineSeqs
  simp

/-- Helper: the visible lines of a sequence decompose over its head. -/
theorem lineSeqs_cons (x : List Char) (xs : List (List Char)) :
    lineSeqs (x :: xs) = lineSeqs [x] ++ lineSeqs xs := by
  unfold lineSeqs
  simp [List.filter_append]

/-- Helper: left-stripping a text does not change its visible lines. -/
theorem lineSeqs_pyStripL (s : List Char) :
    lineSeqs [pyStripL s] = lineSeqs [s] := by
  induction s with
  | nil => rfl
  | cons c cs ih =>
    by_cases hw : c.isWhitespace
    · have h1 : pyStripL (c :: cs) = pyStripL cs := by
        unfold pyStripL
        rw [List.dropWhile_cons, if_pos hw]
      rw [h1, ih]
      by_cases hc : c = '\n'
      · subst hc
        rw [lineSeqs_singleton, lineSeqs_singleton, splitNl_cons_newline]
        simp [show pyStrip [] = [] from rfl]
      · rw [lineSeqs_singleton, lineSeqs_singleton, splitNl_cons_other c cs hc]
        cases hY : splitNl cs with
        | nil => exact absurd hY (splitNl_ne_nil cs)
        | cons t ts =>
          simp only [List.headI_cons, List.tail_cons, List.map_cons]
          rw [pyStrip_cons_ws c t hw]
    · have h1 : pyStripL (c :: cs) = c :: cs := by
        unfold pyStripL
        rw [List.dropWhile_cons, if_neg (by simpa using hw)]
      rw [h1]

/-- Helper: right-stripping a text does not change its visible lines. -/
theorem lineSeqs_pyStripR (s : List Char) :
    lineSeqs [pyStripR s] = lineSeqs [s] := by
  induction s using List.reverseRecOn with
  | nil => rfl
  | append_singleton a c ih =>
    by_cases hw : c.isWhitespace
    · rw [pyStripR_append_ws a c hw, ih]
      by_cases hc : c = '\n'
      · subst hc
        rw [lineSeqs_singleton, lineSeqs_singleton,
          show a ++ ['\n'] = a ++ '\n' :: [] from rfl, splitNl_append_newline]
        simp [show pyStrip [] = [] from rfl, List.filter_append, splitNl]
      · obtain ⟨Y, y, h1, h2⟩ := splitNl_append_char a c hc
        rw [lineSeqs_singleton, lineSeqs_singleton, h1, h2]
        simp only [List.map_append, List.map_cons, List.map_nil]
        rw [pyStrip_append_ws y c hw]
    · rw [pyStripR_append_not_ws a c hw]

/-- Helper: stripping a text does not change its visible lines. -/
theorem lineSeqs_pyStrip (p : List Char) :
    lineSeqs [pyStrip p] = lineSeqs [p] := by
  unfold pyStrip
  rw [lineSeqs_pyStripR, lineSeqs_pyStripL]

/-- Helper: a whitespace-only text has no visible lines. -/
theorem lineSeqs_of_all_ws (p : List Char) (h : pyStrip p = []) :
    lineSeqs [p] = [] := by
  rw [lineSeqs_singleton]
  rw [List.filter_eq_nil_iff]
  intro l hl
  simp only [List.mem_map] at hl
  obtain ⟨l0, hl0, rfl⟩ := hl
  have hall := (pyStrip_eq_nil_iff p).mp h
  have hws : ∀ c ∈ l0, c.isWhitespace := fun c hc =>
    hall c (mem_splitNl_subset p l0 hl0 c hc)
  have hnil : pyStrip l0 = [] := (pyStrip_eq_nil_iff l0).mpr hws
  simp [hnil]

/-- Helper: dropping blank parts and stripping the rest keeps the visible
lines of the part sequence. -/
theorem lineSeqs_send_parts (parts : List (List Char)) :
    lineSeqs ((parts.filter (fun p => !(pyStrip p).isEmpty)).map pyStrip) =
      lineSeqs parts := by
  induction parts with
  | nil => rfl
  | cons p ps ih =>
    by_cases hq : (pyStrip p).isEmpty
    · have hnil : pyStrip p = [] := by simpa using hq
      rw [List.filter_cons, if_neg (by simp [hq]), lineSeqs_cons,
        lineSeqs_of_all_ws p hnil, List.nil_append, ih]
    · rw [List.filter_cons, if_pos (by simp [hq]), List.map_cons,
        lineSeqs_cons, lineSeqs_pyStrip, ih, ← lineSeqs_cons]

/-- Helper: the parts produced by the chunking loop carry exactly the
current part's lines followed by the remaining lines. -/
theorem buildParts_flatMap : ∀ (ls : List (List Char)) (cur : List Char),
    (∀ l ∈ ls, ∀ c ∈ l, c ≠ '\n') →
    (buildParts ls cur).flatMap splitNl = splitNl cur ++ ls := by
  intro ls
  induction ls with
  | nil =>
    intro cur _
    simp [buildParts]
  | cons l ls ih =>
    intro cur h
    have hl : ∀ c ∈ l, c ≠ '\n' := h l (by simp)
    have hls : ∀ l' ∈ ls, ∀ c ∈ l', c ≠ '\n' :=
      fun l' hl' => h l' (by simp [hl'])
    unfold buildParts
    split
    · rw [List.flatMap_cons, ih l hls, splitNl_no_newline l hl]
      simp
    · rw [ih _ hls, splitNl_append_newline, splitNl_no_newline l hl]
      simp

/-- Helper: when the current part and all lines fit the limit, every part
produced by the chunking loop fits the limit. -/
theorem buildParts_length : ∀ (ls : List (List Char)) (cur : List Char),
    (∀ l ∈ ls, l.length ≤ MAX_LENGTH) → cur.length ≤ MAX_LENGTH →
    ∀ p ∈ buildParts ls cur, p.length ≤ MAX_LENGTH := by
  intro ls
  induction ls with
  | nil =>
    intro cur _ hcur p hp
    simp [buildParts] at hp
    subst hp
    exact hcur
  | cons l ls ih =>
    intro cur h hcur p hp
    have hl : l.length ≤ MAX_LENGTH := h l (by simp)
    have hls : ∀ l' ∈ ls, l'.length ≤ MAX_LENGTH :=
      fun l' hl' => h l' (by simp [hl'])
    unfold buildParts at hp
    by_cases hc : cur.length + l.length + 1 > MAX_LENGTH
    · rw [if_pos hc] at hp
      rcases List.mem_cons.mp hp with rfl | hp
      · exact hcur
      · exact ih l hls hl p hp
    · rw [if_neg hc] at hp
      have hfit : (cur ++ '\n' :: l).length ≤ MAX_LENGTH := by
        simp only [List.length_append, List.length_cons]
        omega
      exact ih _ hls hfit p hp

/-- C5 (amended): for a text whose every line fits the limit, the delivery
sends a within-limit text unmodified as one message; each sent chunk fits
the limit; for an over-limit text no sent chunk is empty or
whitespace-only; and the visible lines (each line compared after stripping
surrounding whitespace, blank lines dropped) of the sent chunks equal, in
order, the visible lines of the input — chunk boundaries only ever fall on
line boundaries. -/
theorem claim5_chunking (text : List Char)
    (hlines : ∀ l ∈ splitNl text, l.length ≤ MAX_LENGTH) :
    (text.length ≤ MAX_LENGTH → send_long_message text = [text]) ∧
    (∀ p ∈ send_long_message text, p.length ≤ MAX_LENGTH) ∧
    (MAX_LENGTH < text.length →
      ∀ p ∈ send_long_message text, p ≠ [] ∧ ∃ c ∈ p, ¬ c.isWhitespace) ∧
    lineSeqs (send_long_message text) = lineSeqs [text] := by
  by_cases hlen : text.length ≤ MAX_LENGTH
  · have hsend : send_long_message text = [text] := by
      unfold send_long_message
      rw [if_pos hlen]
    refine ⟨fun _ => hsend, ?_, ?_, by rw [hsend]⟩
    · intro p hp
      rw [hsend] at hp
      simp only [List.mem_singleton] at hp
      subst hp
      exact hlen
    · intro hgt
      omega
  · have hsend : send_long_message text =
        ((buildParts (splitNl text) []).filter
          (fun p => !(pyStrip p).isEmpty)).map pyStrip := by
      unfold send_long_message
      rw [if_neg hlen]
    have hnl : ∀ l ∈ splitNl text, ∀ c ∈ l, c ≠ '\n' :=
      fun l hl => mem_splitNl_no_newline text l hl
    refine ⟨fun h => absurd h hlen, ?_, ?_, ?_⟩
    · intro p hp
      rw [hsend] at hp
      simp only [List.mem_map] at hp
      obtain ⟨p0, hp0, rfl⟩ := hp
      have hp0' : p0 ∈ buildParts (splitNl text) [] :=
        List.mem_of_mem_filter hp0
      have hb := buildParts_length (splitNl text) [] hlines (by simp) p0 hp0'
      calc (pyStrip p0).length ≤ p0.length := pyStrip_length_le p0
        _ ≤ MAX_LENGTH := hb
    · intro _ p hp
      rw [hsend] at hp
      simp only [List.mem_map] at hp
      obtain ⟨p0, hp0, rfl⟩ := hp
      have hq := List.of_mem_filter hp0
      have hne : pyStrip p0 ≠ [] := by simpa using hq
      exact ⟨hne, pyStrip_has_non_ws p0 hne⟩
    · rw [hsend, lineSeqs_send_parts]
      unfold lineSeqs
      rw [buildParts_flatMap (splitNl text) [] hnl]
      simp [splitNl, show pyStrip [] = [] from rfl]

/-- Helper: the lines of the sample over-limit text. -/
theorem splitNl_sample :
    splitNl sampleLongText =
      [List.replicate MAX_LENGTH 'a', ("  x").data] := by
  unfold sampleLongText
  rw [splitNl_append_newline,
    splitNl_no_newline (List.replicate MAX_LENGTH 'a')
      (fun c hc => by rw [List.eq_of_mem_replicate hc]; decide),
    splitNl_no_newline (("  x").data) (by decide)]
  rfl

/-- Helper: a run of letters strips to itself. -/
theorem pyStrip_replicate_a :
    pyStrip (List.replicate MAX_LENGTH 'a') = List.replicate MAX_LENGTH 'a' := by
  have hL : pyStripL (List.replicate MAX_LENGTH 'a') =
      List.replicate MAX_LENGTH 'a' := by
    unfold pyStripL
    rw [show MAX_LENGTH = 4095 + 1 from rfl, List.replicate_succ,
      List.dropWhile_cons, if_neg (by decide), ← List.replicate_succ]
  have hR : pyStripR (List.replicate MAX_LENGTH 'a') =
      List.replicate MAX_LENGTH 'a' := by
    unfold pyStripR
    rw [List.reverse_replicate, show MAX_LENGTH = 4095 + 1 from rfl,
      List.replicate_succ, List.dropWhile_cons, if_neg (by decide),
      ← List.replicate_succ, List.reverse_replicate]
  unfold pyStrip
  rw [hL, hR]

/-- Helper: the sample text is four characters over the limit. -/
theorem sample_length : sampleLongText.length = MAX_LENGTH + 4 := by
  unfold sampleLongText
  rw [List.length_append, List.length_replicate]
  rfl

/-- Helper: the chunks actually sent for the sample text: the long line, and
the second line with its leading whitespace stripped. -/
theorem send_sample :
    send_long_message sampleLongText =
      [List.replicate MAX_LENGTH 'a', ("x").data] := by
  unfold send_long_message
  rw [if_neg (by rw [sample_length]; omega), splitNl_sample]
  have hstep : buildParts
      [List.replicate MAX_LENGTH 'a', ("  x").data] [] =
      [[], List.replicate MAX_LENGTH 'a', ("  x").data] := by
    unfold buildParts
    rw [if_pos (by rw [List.length_replicate]; simp)]
    unfold buildParts
    rw [if_pos (by rw [List.length_replicate]; simp [MAX_LENGTH])]
    rfl
  rw [hstep]
  have hR : (!(pyStrip (List.replicate MAX_LENGTH 'a')).isEmpty) = true := by
    rw [pyStrip_replicate_a, show MAX_LENGTH = 4095 + 1 from rfl,
      List.replicate_succ]
    rfl
  rw [List.filter_cons, if_neg (by simp [show pyStrip [] = [] from rfl]),
    List.filter_cons, if_pos hR,
    List.filter_cons, if_pos (by decide), List.filter_nil,
    List.map_cons, List.map_cons, List.map_nil, pyStrip_replicate_a]
  rfl

/-- C5 (counterexample): on the sample over-limit text every line fits the
limit, yet the sequence of non-blank lines across the sent chunks differs
from the sequence of non-blank lines of the input: the second line starts a
chunk, so `part.strip()` removes its leading whitespace and `"  x"` is
delivered as `"x"`. -/
theorem claim5_strip_changes_line :
    MAX_LENGTH < sampleLongText.length ∧
    (∀ l ∈ splitNl sampleLongText, l.length ≤ MAX_LENGTH) ∧
    ((send_long_message sampleLongText).flatMap splitNl).filter
        (fun l => !(pyStrip l).isEmpty) ≠
      (splitNl sampleLongText).filter (fun l => !(pyStrip l).isEmpty) := by
  have hR : (!(pyStrip (List.replicate MAX_LENGTH 'a')).isEmpty) = true := by
    rw [pyStrip_replicate_a, show MAX_LENGTH = 4095 + 1 from rfl,
      List.replicate_succ]
    rfl
  refine ⟨by rw [sample_length]; omega, ?_, ?_⟩
  · intro l hl
    rw [splitNl_sample] at hl
    rcases List.mem_cons.mp hl with rfl | hl
    · rw [List.length_replicate]
    · simp only [List.mem_singleton] at hl
      subst hl
      decide
  · rw [send_sample, splitNl_sample]
    rw [List.flatMap_cons, List.flatMap_cons, List.flatMap_nil,
      splitNl_no_newline (List.replicate MAX_LENGTH 'a')
        (fun c hc => by rw [List.eq_of_mem_replicate hc]; decide),
      splitNl_no_newline (("x").data) (by decide)]
    rw [show ([List.replicate MAX_LENGTH 'a'] ++ ([("x").data] ++ [])
          : List (List Char)) =
        [List.replicate MAX_LENGTH 'a', ("x").data] from by simp]
    rw [List.filter_cons, if_pos hR, List.filter_cons, if_pos (by decide),
      List.filter_nil,
      List.filter_cons, if_pos hR, List.filter_cons, if_pos (by decide),
      List.filter_nil]
    intro h
    have h2 := (List.cons.injEq _ _ _ _).mp h
    have h3 := (List.cons.injEq _ _ _ _).mp h2.2
    exact absurd h3.1 (by decide)

/-- C5 witness. -/
theorem claim5_witness :
    (∀ l ∈ splitNl ("hola\nmundo").data, l.length ≤ MAX_LENGTH) ∧
    lineSeqs (send_long_message ("hola\nmundo").data) =
      lineSeqs [("hola\nmundo").data] :=
  ⟨by decide, (claim5_chunking ("hola\nmundo").data (by decide)).2.2.2⟩

end TutorIABUAP
